import Mathlib

/-!
Shallow embedding of the ppixiv content metadata cache (`src/src/image_data.js`)
and the image preload scheduler (`src/unnamed/part_001`, class `image_preloader`).

The JavaScript is single-threaded and callback driven.  We embed it as pure
state-transition functions: every method of the `image_data` class becomes a
Lean function `CacheState → ... → CacheState × List Effect`, where the `Effect`
list records the outbound network requests it issues (`helpers.get_request`,
`helpers.fetch_ugoira_metadata`), the timers it schedules (`setTimeout(..., 0)`)
and the user callbacks it invokes.  Callbacks are opaque and identified by a
natural number; invoking one is an effect carrying the data it is passed.
JavaScript dictionaries keyed by id strings become functions `String → Option _`
(or `String → Bool` for the truthy marker dictionaries).
-/

namespace Ppixiv

/-- Body of an ugoira-metadata response (`ugoira_result.body`): the field the
preloader reads is `originalSrc`. -/
structure UgoiraMeta where
  originalSrc : String
deriving DecidableEq, Repr

/-- User (owner) metadata record, keyed by `userId`. -/
structure UserData where
  userId : String
deriving DecidableEq, Repr

/-- One entry of `illust_data.mangaPages`: `urls.small` and `urls.original`. -/
structure MangaPage where
  small : String
  original : String
deriving DecidableEq, Repr

/-- Illustration metadata record (`illust_data`).  `illustType = 2` marks an
animation (ugoira).  `userInfo` and `ugoiraMetadata` are attached by the cache
code itself; the remaining fields come from the network response. -/
structure IllustData where
  illustId : String
  userId : String
  illustType : Nat
  tags : List String
  mangaPages : List MangaPage
  urlsOriginal : String
  ugoiraMetadata : Option UgoiraMeta
  userInfo : Option UserData
deriving DecidableEq, Repr

/-- Overwrite key `k` of a string-keyed dictionary. -/
def mset {α : Type} (m : String → Option α) (k : String) (v : α) : String → Option α :=
  fun q => if q = k then some v else m q

/-- `delete m[k]` on a string-keyed dictionary. -/
def mdel {α : Type} (m : String → Option α) (k : String) : String → Option α :=
  fun q => if q = k then none else m q

/-- Set key `k` of a truthy-marker dictionary to `true`. -/
def bset (m : String → Bool) (k : String) : String → Bool :=
  fun q => if q = k then true else m q

/-- `delete m[k]` on a truthy-marker dictionary. -/
def bdel (m : String → Bool) (k : String) : String → Bool :=
  fun q => if q = k then false else m q

/-- A deferred action scheduled with `setTimeout(..., 0)`. -/
inductive Timer
  | loadUser (userId : String)
  | callPending
deriving DecidableEq, Repr

/-- Observable effects of a cache operation. -/
inductive Effect
  | fetchIllust (illustId : String)
  | fetchUser (userId : String)
  | fetchUgoira (illustId : String)
  | schedule (t : Timer)
  | invoke (cb : Nat) (d : IllustData)
  | invokeUser (cb : Nat) (u : UserData)
deriving DecidableEq, Repr

/-- The mutable fields of the `image_data` singleton. -/
structure CacheState where
  image_data : String → Option IllustData
  user_data : String → Option UserData
  illust_id_to_user_id : String → Option String
  loading_image_data_ids : String → Bool
  loading_user_data_ids : String → Bool
  pending_image_info_calls : List (String × Nat)
  pending_user_info_calls : List (String × Nat)

/-- Response object passed to `loaded_image_info`. -/
structure IllustResult where
  error : Bool
  body : IllustData
deriving DecidableEq, Repr

/-- Response object passed to `loaded_user_info`. -/
structure UserResult where
  error : Bool
  body : UserData
deriving DecidableEq, Repr

/-- Response object passed to the ugoira-metadata continuation. -/
structure UgoiraResult where
  error : Bool
  body : UgoiraMeta
deriving DecidableEq, Repr

/-- `image_data.load_user_info(user_id)`: bail if already loading; if cached,
schedule `call_pending_callbacks` on a timer; otherwise mark loading and issue
the user fetch. -/
def load_user_info (st : CacheState) (user_id : String) : CacheState × List Effect :=
  if st.loading_user_data_ids user_id then (st, [])
  else if (st.user_data user_id).isSome then (st, [.schedule .callPending])
  else ({ st with loading_user_data_ids := bset st.loading_user_data_ids user_id },
        [.fetchUser user_id])

/-- `image_data.load_image_info(illust_id)`: start the hinted user load first,
then bail if the illustration is already loading, then serve from cache (only
ensuring the user fetch), otherwise mark loading and issue the illust fetch. -/
def load_image_info (st : CacheState) (illust_id : String) : CacheState × List Effect :=
  let hint := match st.illust_id_to_user_id illust_id with
    | some uid => load_user_info st uid
    | none => (st, [])
  let st1 := hint.1
  if st1.loading_image_data_ids illust_id then (st1, hint.2)
  else match st1.image_data illust_id with
    | some d =>
      let r := load_user_info st1 d.userId
      (r.1, hint.2 ++ r.2)
    | none =>
      ({ st1 with loading_image_data_ids := bset st1.loading_image_data_ids illust_id },
       hint.2 ++ [.fetchIllust illust_id])

/-- `image_data.get_image_info(illust_id, callback)`: queue the callback (when
non-null) and delegate to `load_image_info`. -/
def get_image_info (st : CacheState) (illust_id : String) (cb : Option Nat) :
    CacheState × List Effect :=
  let st0 := match cb with
    | some c =>
      { st with pending_image_info_calls := st.pending_image_info_calls ++ [(illust_id, c)] }
    | none => st
  load_image_info st0 illust_id

/-- `image_data.get_user_info(user_id, callback)`. -/
def get_user_info (st : CacheState) (user_id : String) (cb : Option Nat) :
    CacheState × List Effect :=
  let st0 := match cb with
    | some c =>
      { st with pending_user_info_calls := st.pending_user_info_calls ++ [(user_id, c)] }
    | none => st
  load_user_info st0 user_id

/-- The image half of `call_pending_callbacks`: scan the pending list in order;
an entry whose illustration and user data are both present has the user record
attached (`illust_data.userInfo = user_data`, written back to the cache since
the JS mutates the cached object), is removed, and its callback is invoked;
other entries are kept.  Returns (state, kept entries, effects). -/
def process_image_pending (st : CacheState) :
    List (String × Nat) → CacheState × List (String × Nat) × List Effect
  | [] => (st, [], [])
  | (illust_id, cb) :: rest =>
    match st.image_data illust_id with
    | none =>
      let r := process_image_pending st rest
      (r.1, (illust_id, cb) :: r.2.1, r.2.2)
    | some d =>
      match st.user_data d.userId with
      | none =>
        let r := process_image_pending st rest
        (r.1, (illust_id, cb) :: r.2.1, r.2.2)
      | some u =>
        let d1 := { d with userInfo := some u }
        let st1 := { st with image_data := mset st.image_data illust_id d1 }
        let r := process_image_pending st1 rest
        (r.1, r.2.1, .invoke cb d1 :: r.2.2)

/-- The user half of `call_pending_callbacks`: fire every entry whose user data
is present, keep the rest.  Returns (kept entries, effects). -/
def process_user_pending (st : CacheState) :
    List (String × Nat) → List (String × Nat) × List Effect
  | [] => ([], [])
  | (user_id, cb) :: rest =>
    match st.user_data user_id with
    | none =>
      let r := process_user_pending st rest
      ((user_id, cb) :: r.1, r.2)
    | some u =>
      let r := process_user_pending st rest
      (r.1, .invokeUser cb u :: r.2)

/-- `image_data.call_pending_callbacks()`: process the image pending list, then
the user pending list. -/
def call_pending_callbacks (st : CacheState) : CacheState × List Effect :=
  let r := process_image_pending st st.pending_image_info_calls
  let st1 := { r.1 with pending_image_info_calls := r.2.1 }
  let ru := process_user_pending st1 st1.pending_user_info_calls
  ({ st1 with pending_user_info_calls := ru.1 }, r.2.2 ++ ru.2)

/-- The `finished_loading_image_data` closure inside `loaded_image_info`:
clear the loading marker, store the illustration, and schedule the user load
on a timer. -/
def finished_loading_image_data (st : CacheState) (d : IllustData) : CacheState × List Effect :=
  ({ st with
      loading_image_data_ids := bdel st.loading_image_data_ids d.illustId,
      image_data := mset st.image_data d.illustId d },
   [.schedule (.loadUser d.userId)])

/-- `image_data.loaded_image_info(illust_result)`: on error, return at once
(note: without touching any marker).  Otherwise set the loading marker (for the
`add_illust_data` entry path), then either issue the ugoira-metadata fetch
(animations) or finish immediately. -/
def loaded_image_info (st : CacheState) (r : IllustResult) : CacheState × List Effect :=
  if r.error then (st, [])
  else
    let d := r.body
    let st1 := { st with loading_image_data_ids := bset st.loading_image_data_ids d.illustId }
    if d.illustType = 2 then (st1, [.fetchUgoira d.illustId])
    else finished_loading_image_data st1 d

/-- The ugoira continuation inside `loaded_image_info`: attach the response
body as `ugoiraMetadata` (with no error check, exactly as the source does) and
finish loading. -/
def loaded_ugoira_metadata (st : CacheState) (d : IllustData) (r : UgoiraResult) :
    CacheState × List Effect :=
  finished_loading_image_data st { d with ugoiraMetadata := some r.body }

/-- `image_data.loaded_user_info(user_result)`: on error, return at once
(again without touching any marker); otherwise clear the loading marker, store
the user data and run `call_pending_callbacks` synchronously. -/
def loaded_user_info (st : CacheState) (r : UserResult) : CacheState × List Effect :=
  if r.error then (st, [])
  else
    let u := r.body
    let st1 := { st with
        loading_user_data_ids := bdel st.loading_user_data_ids u.userId,
        user_data := mset st.user_data u.userId u }
    call_pending_callbacks st1

/-- `image_data.add_illust_data(illust_data)`: feed an externally obtained
record through `loaded_image_info` as a non-error response. -/
def add_illust_data (st : CacheState) (d : IllustData) : CacheState × List Effect :=
  loaded_image_info st { error := false, body := d }

/-- `image_data.add_user_data(user_data)` (the missing `error` field of the
synthesized response object is falsy in JS). -/
def add_user_data (st : CacheState) (u : UserData) : CacheState × List Effect :=
  loaded_user_info st { error := false, body := u }

/-- `image_data.set_user_id_for_illust_id(illust_id, user_id)`. -/
def set_user_id_for_illust_id (st : CacheState) (illust_id user_id : String) : CacheState :=
  { st with illust_id_to_user_id := mset st.illust_id_to_user_id illust_id user_id }

/-- External stimuli that drive the cache: public entry points, network
responses and timer firings. -/
inductive Event
  | getImage (illustId : String) (cb : Option Nat)
  | getUser (userId : String) (cb : Option Nat)
  | respIllust (r : IllustResult)
  | respUser (r : UserResult)
  | respUgoira (d : IllustData) (r : UgoiraResult)
  | timerFire (t : Timer)
  | injectIllust (d : IllustData)
  | injectUser (u : UserData)
deriving DecidableEq, Repr

/-- Dispatch one event to the corresponding cache operation. -/
def stepEvent (st : CacheState) : Event → CacheState × List Effect
  | .getImage i cb => get_image_info st i cb
  | .getUser u cb => get_user_info st u cb
  | .respIllust r => loaded_image_info st r
  | .respUser r => loaded_user_info st r
  | .respUgoira d r => loaded_ugoira_metadata st d r
  | .timerFire (.loadUser u) => load_user_info st u
  | .timerFire .callPending => call_pending_callbacks st
  | .injectIllust d => add_illust_data st d
  | .injectUser u => add_user_data st u

/-- Run a sequence of events, accumulating all effects in order. -/
def run (st : CacheState) : List Event → CacheState × List Effect
  | [] => (st, [])
  | e :: evs =>
    let r := stepEvent st e
    let r2 := run r.1 evs
    (r2.1, r.2 ++ r2.2)

/-- Does this effect issue an illustration-metadata fetch for key `k`? -/
def isFetchIllust (k : String) : Effect → Bool
  | .fetchIllust i => i == k
  | _ => false

/-- Does this effect issue a user-metadata fetch for key `k`? -/
def isFetchUser (k : String) : Effect → Bool
  | .fetchUser u => u == k
  | _ => false

/-- Does this effect invoke image callback `cb`? -/
def isInvokeOf (cb : Nat) : Effect → Bool
  | .invoke c _ => c == cb
  | _ => false

/-- Count the effects satisfying `p`. -/
def countE (p : Effect → Bool) (effs : List Effect) : Nat :=
  (effs.filter p).length

/-- Is this pending entry registered for callback `cb`? -/
def matchesCb (cb : Nat) (e : String × Nat) : Bool :=
  e.2 == cb

/-- Number of occurrences of image callback `cb` in the pending queue. -/
def pendingCount (cb : Nat) (st : CacheState) : Nat :=
  (st.pending_image_info_calls.filter (matchesCb cb)).length

/-- Does this event push image callback `cb` onto the pending queue? -/
def isPushOf (cb : Nat) : Event → Bool
  | .getImage _ (some c) => c == cb
  | _ => false

/-- Number of events in the trace that push image callback `cb`. -/
def countPush (cb : Nat) (evs : List Event) : Nat :=
  (evs.filter (isPushOf cb)).length

/-!
The preload scheduler (`image_preloader` in `src/unnamed/part_001`).

A `_preloader` object is identified by the URL it fetches and its strategy
(`_img_preloader` decodes an image, `_xhr_preloader` fetches an opaque
resource).  The `cancelled` flag records whether `cancel()` has been called on
it (in JS: whether its abort controller has been aborted); a freshly created
preloader has it unset.  Where the JS relies on object identity
(`Array.prototype.indexOf`), structural equality is faithful because the
scheduler never holds two active preloaders with the same URL (the theorems
that need this carry a no-duplicate-URLs hypothesis).
-/

/-- Fetch strategy of a preload candidate. -/
inductive Strategy
  | img
  | xhr
deriving DecidableEq, Repr

/-- A `_preloader` object: its URL, strategy, and whether it was cancelled. -/
structure Preload where
  url : String
  strategy : Strategy
  cancelled : Bool
deriving DecidableEq, Repr

/-- The mutable fields of the `image_preloader` singleton relevant to queue
reconciliation. -/
structure SchedState where
  current_illust_info : Option IllustData
  speculative_illust_info : Option IllustData
  preloads : List Preload
  recently_preloaded_urls : List String
deriving DecidableEq, Repr

/-- `image_preloader.create_preloaders_for_illust(illust_data)`.  `none`
models the TypeError the JS would throw reading `.originalSrc` when an
animation has no `ugoiraMetadata` attached; every record the cache hands over
has it.  The muting collaborator is passed in as the two predicates
`muting.singleton.any_tag_muted` and `muting.singleton.is_muted_user_id`. -/
def create_preloaders_for_illust (tagMuted : List String → Bool) (userMuted : String → Bool)
    (d : IllustData) : Option (List Preload) :=
  if tagMuted d.tags then some []
  else if userMuted d.userId then some []
  else if d.illustType = 2 then
    match d.ugoiraMetadata with
    | none => none
    | some m => some [⟨m.originalSrc, .xhr, false⟩, ⟨d.urlsOriginal, .img, false⟩]
  else
    let previews := d.mangaPages.map fun p => (⟨p.small, .img, false⟩ : Preload)
    match d.mangaPages with
    | [] => some previews
    | p0 :: _ => some (previews ++ [⟨p0.original, .img, false⟩])

/-- `Array.prototype.indexOf` on an array of strings, scanning from index `i`. -/
def js_indexOf_from (x : String) (i : Int) : List String → Int
  | [] => -1
  | y :: ys => if y = x then i else js_indexOf_from x (i + 1) ys

/-- `recently_preloaded_urls.indexOf(url)`. -/
def js_indexOf (l : List String) (x : String) : Int :=
  js_indexOf_from x 0 l

/-- The filtering loop of `check_fetch_queue`: push each wanted preload whose
URL is not in the recently-preloaded list. -/
def filter_recent (recent : List String) (wanted : List Preload) : List Preload :=
  wanted.foldl (fun acc p => if js_indexOf recent p.url = -1 then acc ++ [p] else acc) []

/-- `image_preloader._find_active_preload_by_url(url)`. -/
def find_active_preload_by_url (st : SchedState) (url : String) : Option Preload :=
  st.preloads.find? (fun p => p.url == url)

/-- The candidate list contributed by one (possibly absent) target. -/
def cands_of (tagMuted : List String → Bool) (userMuted : String → Bool) :
    Option IllustData → Option (List Preload)
  | none => some []
  | some d => create_preloaders_for_illust tagMuted userMuted d

/-- The `wanted_preloads` list built at the top of `check_fetch_queue`:
current-target candidates followed by speculative-target candidates. -/
def wanted_preloads (tagMuted : List String → Bool) (userMuted : String → Bool)
    (st : SchedState) : Option (List Preload) :=
  match cands_of tagMuted userMuted st.current_illust_info,
        cands_of tagMuted userMuted st.speculative_illust_info with
  | some a, some b => some (a ++ b)
  | _, _ => none

/-- The final loop of `check_fetch_queue`: cancel every old preload that is
not in the updated list, appending it (now cancelled) so it stays bookkept
until settlement.  `acc` is `updated_preload_list`. -/
def cancel_unwanted (acc : List Preload) : List Preload → List Preload
  | [] => acc
  | q :: olds =>
    if acc.contains q then cancel_unwanted acc olds
    else cancel_unwanted (acc ++ [{ q with cancelled := true }]) olds

/-- `image_preloader.check_fetch_queue()`.  Returns the new state and the
preload that was started, if any; `none` overall models a thrown TypeError in
candidate derivation.  Mirrors the source: build the wanted list, filter
against the recently-preloaded list, return if empty, truncate to 5, return if
any candidate is already running, otherwise start the head candidate and
cancel every superseded active preload (which stays in the list). -/
def check_fetch_queue (tagMuted : List String → Bool) (userMuted : String → Bool)
    (st : SchedState) : Option (SchedState × Option Preload) :=
  match wanted_preloads tagMuted userMuted st with
  | none => none
  | some wanted =>
    let fp0 := filter_recent st.recently_preloaded_urls wanted
    if fp0.isEmpty then some (st, none)
    else
      let fp := fp0.take 5
      if fp.any (fun p => (find_active_preload_by_url st p.url).isSome) then some (st, none)
      else
        match fp with
        | [] => some (st, none)
        | p :: _ => some ({ st with preloads := cancel_unwanted [p] st.preloads }, some p)

/-- `recently_preloaded_urls.push(url)` followed by
`splice(0, length - 1000)`: append and keep only the last 1000 entries. -/
def push_bounded (recent : List String) (url : String) : List String :=
  let r := recent ++ [url]
  r.drop (r.length - 1000)

/-- The `finally` settlement handler installed by `check_fetch_queue` when a
preload is started: record the URL into the recently-preloaded list, then (if
the task is still bookkept) remove it from the active list.  The re-entrant
`check_fetch_queue()` call it then makes is modelled separately. -/
def preload_finished (st : SchedState) (p : Preload) : SchedState :=
  let recent := push_bounded st.recently_preloaded_urls p.url
  if st.preloads.contains p then
    { st with recently_preloaded_urls := recent, preloads := st.preloads.erase p }
  else
    { st with recently_preloaded_urls := recent }

/-- Number of preloads in the list that are running (not yet cancelled). -/
def countRunning (l : List Preload) : Nat :=
  (l.filter (fun p => !p.cancelled)).length

/-!
`image_preloader.set_current_image(illust_id)` is an `async` method; we embed
it as two functions around its single suspension point (the awaited metadata
request).  `set_current_image_entry` is the code before the `await`: it
returns the identifier captured for the resumption (`none` when the method
returned without suspending).  `set_current_image_resume` is the code after
the `await`, given the captured identifier and the arrived metadata; it
re-checks the captured identifier against the live `current_illust_id` and
discards the stale result on mismatch.
-/

/-- The fields of `image_preloader` read and written by `set_current_image`. -/
structure CurrentImageState where
  current_illust_id : Option String
  current_illust_info : Option IllustData
deriving DecidableEq, Repr

/-- Code of `set_current_image` before the `await`: no-op when the id is
unchanged, otherwise store the new id, clear the stored info, and (for a
non-null id) suspend with the id captured. -/
def set_current_image_entry (st : CurrentImageState) (illust_id : Option String) :
    CurrentImageState × Option String :=
  if st.current_illust_id = illust_id then (st, none)
  else
    let st1 : CurrentImageState := { current_illust_id := illust_id, current_illust_info := none }
    match illust_id with
    | none => (st1, none)
    | some i => (st1, some i)

/-- Code of `set_current_image` after the `await`: if the live id no longer
matches the captured one (or info was already stored), discard the result;
otherwise store the arrived metadata. -/
def set_current_image_resume (st : CurrentImageState) (captured : String) (info : IllustData) :
    CurrentImageState :=
  if st.current_illust_id ≠ some captured ∨ st.current_illust_info ≠ none then st
  else { st with current_illust_info := some info }

/-!
Concrete states and records used to exercise the theorems below on closed
inputs.
-/

/-- The cache state right after construction: empty dictionaries and lists. -/
def emptyCache : CacheState where
  image_data := fun _ => none
  user_data := fun _ => none
  illust_id_to_user_id := fun _ => none
  loading_image_data_ids := fun _ => false
  loading_user_data_ids := fun _ => false
  pending_image_info_calls := []
  pending_user_info_calls := []

/-- A static illustration "i1" owned by "u1". -/
def dA : IllustData where
  illustId := "i1"
  userId := "u1"
  illustType := 0
  tags := []
  mangaPages := [⟨"i1s.jpg", "i1o.jpg"⟩]
  urlsOriginal := "i1o.jpg"
  ugoiraMetadata := none
  userInfo := none

/-- The owner record for "u1". -/
def uA : UserData where
  userId := "u1"

/-- A cache that already holds `dA` and its owner `uA`. -/
def cachedCache : CacheState :=
  { emptyCache with
      image_data := fun k => if k = "i1" then some dA else none,
      user_data := fun k => if k = "u1" then some uA else none }

/-- A cache with fetches for item "1" and user "u9" in flight. -/
def loadingCache : CacheState :=
  { emptyCache with
      loading_image_data_ids := fun k => k == "1",
      loading_user_data_ids := fun k => k == "u9" }

/-- An error response to an illustration fetch. -/
def errIllustResult : IllustResult where
  error := true
  body := dA

/-- An error response to a user fetch. -/
def errUserResult : UserResult where
  error := true
  body := uA

/-- An animation item "v1" owned by "u1". -/
def dV : IllustData where
  illustId := "v1"
  userId := "u1"
  illustType := 2
  tags := []
  mangaPages := []
  urlsOriginal := "v1o.jpg"
  ugoiraMetadata := none
  userInfo := none

/-- A failed ugoira-metadata response. -/
def errUgoiraResult : UgoiraResult where
  error := true
  body := ⟨"bad.zip"⟩

/-- A static illustration "7" owned by "u7". -/
def d7 : IllustData where
  illustId := "7"
  userId := "u7"
  illustType := 0
  tags := []
  mangaPages := []
  urlsOriginal := ""
  ugoiraMetadata := none
  userInfo := none

/-- A cache with a fetch for item "7" outstanding. -/
def loading7Cache : CacheState :=
  { emptyCache with loading_image_data_ids := fun k => k == "7" }

/-- A muting collaborator whose tag predicate mutes nothing. -/
def mutesNoTag : List String → Bool := fun _ => false

/-- A muting collaborator whose owner predicate mutes nothing. -/
def mutesNoOwner : String → Bool := fun _ => false

/-- A second static illustration "i2" owned by "u2". -/
def dB : IllustData where
  illustId := "i2"
  userId := "u2"
  illustType := 0
  tags := []
  mangaPages := [⟨"i2s.jpg", "i2o.jpg"⟩]
  urlsOriginal := "i2o.jpg"
  ugoiraMetadata := none
  userInfo := none

/-- An animation item "v2" with its ugoira metadata attached, as the cache
stores it. -/
def dV2 : IllustData where
  illustId := "v2"
  userId := "u1"
  illustType := 2
  tags := []
  mangaPages := []
  urlsOriginal := "v2o.jpg"
  ugoiraMetadata := some ⟨"v2.zip"⟩
  userInfo := none

/-- Scheduler state: current target `dA`, speculative target `dB`, nothing
running, nothing recently preloaded. -/
def schedAB : SchedState where
  current_illust_info := some dA
  speculative_illust_info := some dB
  preloads := []
  recently_preloaded_urls := []

/-- Scheduler state: current target `dA` and one unrelated preload "p1"
already running. -/
def schedOneActive : SchedState where
  current_illust_info := some dA
  speculative_illust_info := none
  preloads := [⟨"p1", .img, false⟩]
  recently_preloaded_urls := []

/-- The reconciliation result for `schedOneActive`: the head candidate for
`dA` is started and the superseded "p1" task is kept, marked cancelling. -/
def schedOneActiveRes : SchedState where
  current_illust_info := some dA
  speculative_illust_info := none
  preloads := [⟨"i1s.jpg", .img, false⟩, ⟨"p1", .img, true⟩]
  recently_preloaded_urls := []

/-!
Basic lemmas about the cache operations.
-/

theorem countE_append (p : Effect → Bool) (a b : List Effect) :
    countE p (a ++ b) = countE p a + countE p b := by
  simp [countE, List.filter_append]

theorem load_user_info_frame (st : CacheState) (u : String) :
    (load_user_info st u).1.pending_image_info_calls = st.pending_image_info_calls ∧
    (load_user_info st u).1.pending_user_info_calls = st.pending_user_info_calls ∧
    (load_user_info st u).1.loading_image_data_ids = st.loading_image_data_ids ∧
    (load_user_info st u).1.image_data = st.image_data ∧
    (load_user_info st u).1.user_data = st.user_data ∧
    (load_user_info st u).1.illust_id_to_user_id = st.illust_id_to_user_id := by
  unfold load_user_info
  split
  · exact ⟨rfl, rfl, rfl, rfl, rfl, rfl⟩
  · split
    · exact ⟨rfl, rfl, rfl, rfl, rfl, rfl⟩
    · exact ⟨rfl, rfl, rfl, rfl, rfl, rfl⟩

theorem load_user_info_countE (st : CacheState) (u : String) (p : Effect → Bool)
    (hF : p (.fetchUser u) = false) (hS : p (.schedule .callPending) = false) :
    countE p (load_user_info st u).2 = 0 := by
  unfold load_user_info
  split
  · rfl
  · split
    · simp [countE, hS]
    · simp [countE, hF]

theorem load_user_info_loading_user_mono (st : CacheState) (u k : String)
    (h : st.loading_user_data_ids k = true) :
    (load_user_info st u).1.loading_user_data_ids k = true := by
  unfold load_user_info
  split
  · exact h
  · split
    · exact h
    · simp [bset, h]

theorem load_image_info_frame (st : CacheState) (i : String) :
    (load_image_info st i).1.pending_image_info_calls = st.pending_image_info_calls ∧
    (load_image_info st i).1.pending_user_info_calls = st.pending_user_info_calls ∧
    (load_image_info st i).1.image_data = st.image_data ∧
    (load_image_info st i).1.user_data = st.user_data ∧
    (load_image_info st i).1.illust_id_to_user_id = st.illust_id_to_user_id := by
  unfold load_image_info
  cases hh : st.illust_id_to_user_id i with
  | none =>
    simp only [hh]
    split
    · exact ⟨rfl, rfl, rfl, rfl, rfl⟩
    · split
      · exact (load_user_info_frame _ _).imp id (fun h => h.imp id (fun h => h.2))
      · exact ⟨rfl, rfl, rfl, rfl, rfl⟩
  | some uid =>
    simp only [hh]
    have h1 := load_user_info_frame st uid
    split
    · exact ⟨h1.1, h1.2.1, h1.2.2.2.1, h1.2.2.2.2.1, h1.2.2.2.2.2⟩
    · split
      · rename_i d hd
        have h2 := load_user_info_frame (load_user_info st uid).1 d.userId
        exact ⟨h2.1.trans h1.1, h2.2.1.trans h1.2.1, h2.2.2.2.1.trans h1.2.2.2.1,
               h2.2.2.2.2.1.trans h1.2.2.2.2.1, h2.2.2.2.2.2.trans h1.2.2.2.2.2⟩
      · exact ⟨h1.1, h1.2.1, h1.2.2.2.1, h1.2.2.2.2.1, h1.2.2.2.2.2⟩

theorem get_image_info_first (st : CacheState) (k : String) (cb : Option Nat)
    (h1 : st.loading_image_data_ids k = false) (h2 : st.image_data k = none) :
    countE (isFetchIllust k) (get_image_info st k cb).2 = 1 ∧
    (get_image_info st k cb).1.loading_image_data_ids k = true ∧
    (get_image_info st k cb).1.image_data k = none := by
  unfold get_image_info
  have key : ∀ st0 : CacheState, st0.loading_image_data_ids = st.loading_image_data_ids →
      st0.image_data = st.image_data → st0.illust_id_to_user_id = st.illust_id_to_user_id →
      countE (isFetchIllust k) (load_image_info st0 k).2 = 1 ∧
      (load_image_info st0 k).1.loading_image_data_ids k = true ∧
      (load_image_info st0 k).1.image_data k = none := by
    intro st0 hl hi hm
    unfold load_image_info
    cases hh : st0.illust_id_to_user_id k with
    | none =>
      simp only [hh]
      rw [if_neg (by simp [hl, h1])]
      rw [show st0.image_data k = none from hi ▸ h2]
      constructor
      · simp [countE_append, countE, isFetchIllust,
          load_user_info_countE st0 k (isFetchIllust k) rfl rfl]
      · constructor
        · simp [bset]
        · simp [hi, h2]
    | some uid =>
      simp only [hh]
      have hf := load_user_info_frame st0 uid
      rw [if_neg (by rw [hf.2.2.1, hl, h1]; simp)]
      rw [show (load_user_info st0 uid).1.image_data k = none from hf.2.2.2.1 ▸ hi ▸ h2]
      refine ⟨?_, ?_, ?_⟩
      · rw [countE_append]
        rw [load_user_info_countE st0 uid (isFetchIllust k) rfl rfl]
        simp [countE, isFetchIllust]
      · simp [bset]
      · simp [hf.2.2.2.1, hi, h2]
  cases cb with
  | none => exact key st rfl rfl rfl
  | some c => exact key _ rfl rfl rfl

theorem get_image_info_coalesced (st : CacheState) (k : String) (cb : Option Nat)
    (h : st.loading_image_data_ids k = true) :
    countE (isFetchIllust k) (get_image_info st k cb).2 = 0 ∧
    (get_image_info st k cb).1.loading_image_data_ids k = true ∧
    (get_image_info st k cb).1.image_data k = st.image_data k := by
  unfold get_image_info
  have key : ∀ st0 : CacheState, st0.loading_image_data_ids = st.loading_image_data_ids →
      st0.image_data = st.image_data → st0.illust_id_to_user_id = st.illust_id_to_user_id →
      countE (isFetchIllust k) (load_image_info st0 k).2 = 0 ∧
      (load_image_info st0 k).1.loading_image_data_ids k = true ∧
      (load_image_info st0 k).1.image_data k = st.image_data k := by
    intro st0 hl hi hm
    unfold load_image_info
    cases hh : st0.illust_id_to_user_id k with
    | none =>
      simp only [hh]
      rw [if_pos (by rw [hl]; exact h)]
      exact ⟨rfl, by rw [hl]; exact h, by rw [hi]⟩
    | some uid =>
      simp only [hh]
      have hf := load_user_info_frame st0 uid
      rw [if_pos (by rw [hf.2.2.1, hl]; exact h)]
      refine ⟨load_user_info_countE st0 uid (isFetchIllust k) rfl rfl, ?_, ?_⟩
      · rw [hf.2.2.1, hl]; exact h
      · rw [hf.2.2.2.1, hi]
  cases cb with
  | none => exact key st rfl rfl rfl
  | some c => exact key _ rfl rfl rfl

theorem get_user_info_first (st : CacheState) (k : String) (cb : Option Nat)
    (h1 : st.loading_user_data_ids k = false) (h2 : st.user_data k = none) :
    countE (isFetchUser k) (get_user_info st k cb).2 = 1 ∧
    (get_user_info st k cb).1.loading_user_data_ids k = true := by
  unfold get_user_info load_user_info
  cases cb <;>
    simp_all [countE, isFetchUser, bset]

theorem get_user_info_coalesced (st : CacheState) (k : String) (cb : Option Nat)
    (h : st.loading_user_data_ids k = true) :
    countE (isFetchUser k) (get_user_info st k cb).2 = 0 ∧
    (get_user_info st k cb).1.loading_user_data_ids k = true := by
  unfold get_user_info load_user_info
  cases cb <;>
    simp_all [countE, isFetchUser, bset]

theorem run_getImage_coalesced (k : String) (cbs : List (Option Nat)) (st : CacheState)
    (h : st.loading_image_data_ids k = true) :
    countE (isFetchIllust k) (run st (cbs.map (Event.getImage k))).2 = 0 := by
  induction cbs generalizing st with
  | nil => rfl
  | cons c cs ih =>
    simp only [List.map_cons, run, stepEvent]
    rw [countE_append]
    have h1 := get_image_info_coalesced st k c h
    rw [h1.1, ih _ h1.2.1]

theorem run_getUser_coalesced (k : String) (cbs : List (Option Nat)) (st : CacheState)
    (h : st.loading_user_data_ids k = true) :
    countE (isFetchUser k) (run st (cbs.map (Event.getUser k))).2 = 0 := by
  induction cbs generalizing st with
  | nil => rfl
  | cons c cs ih =>
    simp only [List.map_cons, run, stepEvent]
    rw [countE_append]
    have h1 := get_user_info_coalesced st k c h
    rw [h1.1, ih _ h1.2]

/-- C1: for any item identifier `k` not yet cached and with no fetch in
flight, issuing `get_image_info(k, ·)` any number of times (with arbitrary
callbacks, no response arriving in between) issues exactly one outbound
illustration-metadata fetch for `k`; and symmetrically, issuing
`get_user_info(k', ·)` any number of times issues exactly one outbound
user-metadata fetch for `k'`.  The later requests are coalesced by the
`loading_image_data_ids` / `loading_user_data_ids` ledgers. -/
theorem item_and_owner_fetch_dedup (st st' : CacheState) (k k' : String)
    (cbs cbs' : List (Option Nat))
    (hne : cbs ≠ []) (hne' : cbs' ≠ [])
    (h1 : st.loading_image_data_ids k = false) (h2 : st.image_data k = none)
    (h1' : st'.loading_user_data_ids k' = false) (h2' : st'.user_data k' = none) :
    countE (isFetchIllust k) (run st (cbs.map (Event.getImage k))).2 = 1 ∧
    countE (isFetchUser k') (run st' (cbs'.map (Event.getUser k'))).2 = 1 := by
  constructor
  · match cbs, hne with
    | c :: cs, _ =>
      simp only [List.map_cons, run, stepEvent]
      rw [countE_append]
      have hA := get_image_info_first st k c h1 h2
      rw [hA.1, run_getImage_coalesced k cs _ hA.2.1]
  · match cbs', hne' with
    | c :: cs, _ =>
      simp only [List.map_cons, run, stepEvent]
      rw [countE_append]
      have hA := get_user_info_first st' k' c h1' h2'
      rw [hA.1, run_getUser_coalesced k' cs _ hA.2]

/-- Witness for the dedup theorem: on the empty cache, three concurrent
requests for item "10" and two for user "77" each issue exactly one fetch. -/
theorem item_and_owner_fetch_dedup_witness :
    countE (isFetchIllust "10")
      (run emptyCache ([some 0, some 1, none].map (Event.getImage "10"))).2 = 1 ∧
    countE (isFetchUser "77")
      (run emptyCache ([some 2, none].map (Event.getUser "77"))).2 = 1 :=
  item_and_owner_fetch_dedup emptyCache emptyCache "10" "77" [some 0, some 1, none]
    [some 2, none] (by decide) (by decide) rfl rfl rfl rfl

theorem load_image_info_countE (st : CacheState) (i : String) (p : Effect → Bool)
    (hFI : p (.fetchIllust i) = false) (hFU : ∀ u, p (.fetchUser u) = false)
    (hS : p (.schedule .callPending) = false) :
    countE p (load_image_info st i).2 = 0 := by
  unfold load_image_info
  cases hh : st.illust_id_to_user_id i with
  | none =>
    simp only [hh]
    split
    · rfl
    · split
      · rw [show ([] : List Effect) ++ (load_user_info st _).2 = (load_user_info st _).2 from
          List.nil_append _]
        exact load_user_info_countE _ _ p (hFU _) hS
      · simp [countE, hFI]
  | some uid =>
    simp only [hh]
    split
    · exact load_user_info_countE _ _ p (hFU _) hS
    · split
      · rw [countE_append]
        rw [load_user_info_countE st uid p (hFU _) hS,
            load_user_info_countE _ _ p (hFU _) hS]
      · rw [countE_append, load_user_info_countE st uid p (hFU _) hS]
        simp [countE, hFI]

theorem countE_cons (p : Effect → Bool) (e : Effect) (l : List Effect) :
    countE p (e :: l) = (if p e = true then 1 else 0) + countE p l := by
  simp only [countE, List.filter_cons]
  split <;> simp [Nat.add_comm]

theorem matchesCb_mk (cb : Nat) (i : String) (c : Nat) :
    matchesCb cb (i, c) = (c == cb) :=
  rfl

theorem process_image_pending_count (cb : Nat) (l : List (String × Nat)) (st : CacheState) :
    countE (isInvokeOf cb) (process_image_pending st l).2.2 +
      ((process_image_pending st l).2.1.filter (matchesCb cb)).length =
    (l.filter (matchesCb cb)).length := by
  induction l generalizing st with
  | nil => rfl
  | cons hd tl ih =>
    obtain ⟨i, c⟩ := hd
    simp only [process_image_pending]
    cases him : st.image_data i with
    | none =>
      have H := ih st
      simp only [him, List.filter_cons, matchesCb_mk]
      by_cases hc : (c == cb) = true
      · rw [if_pos hc, if_pos hc]
        simp only [List.length_cons]
        omega
      · rw [if_neg hc, if_neg hc]
        exact H
    | some d =>
      cases hu : st.user_data d.userId with
      | none =>
        have H := ih st
        simp only [him, hu, List.filter_cons, matchesCb_mk]
        by_cases hc : (c == cb) = true
        · rw [if_pos hc, if_pos hc]
          simp only [List.length_cons]
          omega
        · rw [if_neg hc, if_neg hc]
          exact H
      | some u =>
        have H := ih { st with image_data := mset st.image_data i { d with userInfo := some u } }
        simp only [him, hu, List.filter_cons, matchesCb_mk, countE_cons, isInvokeOf]
        by_cases hc : (c == cb) = true
        · rw [if_pos hc, if_pos hc]
          simp only [List.length_cons]
          omega
        · rw [if_neg hc, if_neg hc]
          omega

theorem process_user_pending_countE (cb : Nat) (l : List (String × Nat)) (st : CacheState) :
    countE (isInvokeOf cb) (process_user_pending st l).2 = 0 := by
  induction l with
  | nil => rfl
  | cons hd tl ih =>
    obtain ⟨uid, c⟩ := hd
    simp only [process_user_pending]
    cases hu : st.user_data uid with
    | none => simpa [hu] using ih
    | some u => simpa [hu, countE_cons, isInvokeOf] using ih

theorem call_pending_callbacks_count (st : CacheState) (cb : Nat) :
    countE (isInvokeOf cb) (call_pending_callbacks st).2 +
      pendingCount cb (call_pending_callbacks st).1 = pendingCount cb st := by
  unfold call_pending_callbacks pendingCount
  rw [countE_append]
  rw [process_user_pending_countE]
  have := process_image_pending_count cb st.pending_image_info_calls st
  simpa using this

theorem finished_loading_image_data_frame (st : CacheState) (d : IllustData) :
    (finished_loading_image_data st d).1.pending_image_info_calls = st.pending_image_info_calls ∧
    (finished_loading_image_data st d).1.pending_user_info_calls = st.pending_user_info_calls ∧
    (finished_loading_image_data st d).2 = [.schedule (.loadUser d.userId)] :=
  ⟨rfl, rfl, rfl⟩

theorem loaded_image_info_invoke_pending (st : CacheState) (r : IllustResult) (cb : Nat) :
    countE (isInvokeOf cb) (loaded_image_info st r).2 = 0 ∧
    pendingCount cb (loaded_image_info st r).1 = pendingCount cb st := by
  unfold loaded_image_info finished_loading_image_data
  split
  · exact ⟨rfl, rfl⟩
  · dsimp only
    split
    · exact ⟨rfl, rfl⟩
    · exact ⟨rfl, rfl⟩

theorem loaded_ugoira_metadata_invoke_pending (st : CacheState) (d : IllustData)
    (r : UgoiraResult) (cb : Nat) :
    countE (isInvokeOf cb) (loaded_ugoira_metadata st d r).2 = 0 ∧
    pendingCount cb (loaded_ugoira_metadata st d r).1 = pendingCount cb st :=
  ⟨rfl, rfl⟩

theorem loaded_user_info_invoke_pending (st : CacheState) (r : UserResult) (cb : Nat) :
    countE (isInvokeOf cb) (loaded_user_info st r).2 +
      pendingCount cb (loaded_user_info st r).1 = pendingCount cb st := by
  unfold loaded_user_info
  split
  · simp [countE]
  · exact call_pending_callbacks_count _ cb

theorem stepEvent_invoke_pending (st : CacheState) (e : Event) (cb : Nat) :
    countE (isInvokeOf cb) (stepEvent st e).2 + pendingCount cb (stepEvent st e).1 =
      pendingCount cb st + (if isPushOf cb e = true then 1 else 0) := by
  cases e with
  | getImage i cbo =>
    simp only [stepEvent, get_image_info]
    have hfr := load_image_info_frame
    cases cbo with
    | none =>
      rw [load_image_info_countE st i (isInvokeOf cb) rfl (fun _ => rfl) rfl]
      simp only [pendingCount, (hfr st i).1, isPushOf]
      simp
    | some c =>
      rw [load_image_info_countE _ i (isInvokeOf cb) rfl (fun _ => rfl) rfl]
      simp only [pendingCount,
        (hfr { st with pending_image_info_calls :=
          st.pending_image_info_calls ++ [(i, c)] } i).1]
      simp only [List.filter_append, List.length_append, isPushOf, List.filter_cons,
        matchesCb_mk, List.filter_nil]
      by_cases hc : (c == cb) = true
      · rw [if_pos hc, if_pos hc]
        simp
      · rw [if_neg hc, if_neg hc]
        simp
  | getUser u cbo =>
    simp only [stepEvent, get_user_info]
    have hfr := load_user_info_frame
    cases cbo with
    | none =>
      rw [load_user_info_countE st u (isInvokeOf cb) rfl rfl]
      simp only [pendingCount, (hfr st u).1, isPushOf]
      simp
    | some c =>
      rw [load_user_info_countE _ u (isInvokeOf cb) rfl rfl]
      simp only [pendingCount,
        (hfr { st with pending_user_info_calls :=
          st.pending_user_info_calls ++ [(u, c)] } u).1]
      simp [isPushOf]
  | respIllust r =>
    have h := loaded_image_info_invoke_pending st r cb
    simp only [stepEvent, h.1, h.2, isPushOf]
    simp
  | respUser r =>
    have h := loaded_user_info_invoke_pending st r cb
    simp only [stepEvent, isPushOf]
    simp [h]
  | respUgoira d r =>
    have h := loaded_ugoira_metadata_invoke_pending st d r cb
    simp only [stepEvent, h.1, h.2, isPushOf]
    simp
  | timerFire t =>
    cases t with
    | loadUser u =>
      simp only [stepEvent]
      rw [load_user_info_countE st u (isInvokeOf cb) rfl rfl]
      simp only [pendingCount, (load_user_info_frame st u).1, isPushOf]
      simp
    | callPending =>
      have h := call_pending_callbacks_count st cb
      simp only [stepEvent, isPushOf]
      simp [h]
  | injectIllust d =>
    have h := loaded_image_info_invoke_pending st { error := false, body := d } cb
    simp only [stepEvent, add_illust_data, h.1, h.2, isPushOf]
    simp
  | injectUser u =>
    have h := loaded_user_info_invoke_pending st { error := false, body := u } cb
    simp only [stepEvent, add_user_data, isPushOf]
    simp [h]

theorem run_invoke_pending (st : CacheState) (evs : List Event) (cb : Nat) :
    countE (isInvokeOf cb) (run st evs).2 + pendingCount cb (run st evs).1 =
      pendingCount cb st + countPush cb evs := by
  induction evs generalizing st with
  | nil => simp [run, countE, countPush]
  | cons e evs ih =>
    simp only [run]
    rw [countE_append]
    have h1 := stepEvent_invoke_pending st e cb
    have h2 := ih (stepEvent st e).1
    simp only [countPush, List.filter_cons]
    by_cases hc : isPushOf cb e = true
    · rw [if_pos hc]
      rw [if_pos hc] at h1
      simp only [List.length_cons]
      simp only [countPush] at h2
      omega
    · rw [if_neg hc]
      rw [if_neg hc] at h1
      simp only [countPush] at h2
      omega

theorem call_pending_single (A : CacheState) (i : String) (cb : Nat) (d : IllustData)
    (u : UserData)
    (h1 : A.pending_image_info_calls = [(i, cb)])
    (h2 : A.pending_user_info_calls = [])
    (h3 : A.image_data i = some d) (h4 : A.user_data d.userId = some u) :
    (call_pending_callbacks A).2 = [.invoke cb { d with userInfo := some u }] ∧
    (call_pending_callbacks A).1.pending_image_info_calls = [] ∧
    (call_pending_callbacks A).1.pending_user_info_calls = [] := by
  unfold call_pending_callbacks
  rw [h1]
  simp only [process_image_pending, h3, h4]
  simp [h2, process_user_pending]

theorem call_pending_empty (B : CacheState)
    (h1 : B.pending_image_info_calls = []) (h2 : B.pending_user_info_calls = []) :
    (call_pending_callbacks B).2 = [] := by
  unfold call_pending_callbacks
  rw [h1]
  simp only [process_image_pending]
  simp [h2, process_user_pending]

/-- C2: the pending-callback ledger never fires a callback more times than it
was registered (for any event trace, invocations of `cb0` plus its entries
still pending equal its entries initially pending plus its registrations), and
when `get_image_info(i, cb)` is called with both the item and its owner
already cached, the call itself invokes nothing — it only schedules
`call_pending_callbacks` on a timer — and the scheduled run then invokes `cb`
exactly once, with the item record carrying its owner (`userInfo` attached),
removes the entry, and a further run invokes nothing. -/
theorem callback_fired_once_and_deferred
    (st : CacheState) (evs : List Event) (cb0 : Nat)
    (i : String) (d : IllustData) (u : UserData) (cb : Nat)
    (hd : st.image_data i = some d) (hu : st.user_data d.userId = some u)
    (hlo : st.loading_image_data_ids i = false)
    (hlu : st.loading_user_data_ids d.userId = false)
    (hm : st.illust_id_to_user_id i = none)
    (hpi : st.pending_image_info_calls = [])
    (hpu : st.pending_user_info_calls = []) :
    (countE (isInvokeOf cb0) (run st evs).2 + pendingCount cb0 (run st evs).1 =
      pendingCount cb0 st + countPush cb0 evs) ∧
    (get_image_info st i (some cb)).2 = [.schedule .callPending] ∧
    (call_pending_callbacks (get_image_info st i (some cb)).1).2 =
      [.invoke cb { d with userInfo := some u }] ∧
    (call_pending_callbacks (get_image_info st i (some cb)).1).1.pending_image_info_calls
      = [] ∧
    (call_pending_callbacks
      (call_pending_callbacks (get_image_info st i (some cb)).1).1).2 = [] := by
  have hred : get_image_info st i (some cb) =
      load_image_info
        { st with pending_image_info_calls := st.pending_image_info_calls ++ [(i, cb)] } i :=
    rfl
  have frame := load_image_info_frame
    { st with pending_image_info_calls := st.pending_image_info_calls ++ [(i, cb)] } i
  have h2 : (get_image_info st i (some cb)).2 = [.schedule .callPending] := by
    rw [hred]
    unfold load_image_info load_user_info
    simp [hm, hlo, hd, hlu, hu]
  have hA1 : (get_image_info st i (some cb)).1.pending_image_info_calls = [(i, cb)] := by
    rw [hred, frame.1]
    simp [hpi]
  have hA2 : (get_image_info st i (some cb)).1.pending_user_info_calls = [] := by
    rw [hred, frame.2.1]
    exact hpu
  have hA3 : (get_image_info st i (some cb)).1.image_data i = some d := by
    rw [hred, frame.2.2.1]
    exact hd
  have hA4 : (get_image_info st i (some cb)).1.user_data d.userId = some u := by
    rw [hred, frame.2.2.2.1]
    exact hu
  have main := call_pending_single (get_image_info st i (some cb)).1 i cb d u hA1 hA2 hA3 hA4
  have h5 := call_pending_empty (call_pending_callbacks (get_image_info st i (some cb)).1).1
    main.2.1 main.2.2
  exact ⟨run_invoke_pending st evs cb0, h2, main.1, main.2.1, h5⟩

/-- Witness for the callback theorem on the concrete cached state: requesting
"i1" with callback 5 only schedules a timer, and the timer run fires callback
5 exactly once with the owner attached. -/
theorem callback_fired_once_and_deferred_witness :
    (get_image_info cachedCache "i1" (some 5)).2 = [.schedule .callPending] ∧
    (call_pending_callbacks (get_image_info cachedCache "i1" (some 5)).1).2 =
      [.invoke 5 { dA with userInfo := some uA }] ∧
    (call_pending_callbacks
      (call_pending_callbacks (get_image_info cachedCache "i1" (some 5)).1).1).2 = [] := by
  have h := callback_fired_once_and_deferred cachedCache [] 0 "i1" dA uA 5
    (by simp [cachedCache, emptyCache]) (by simp [cachedCache, emptyCache, dA])
    rfl rfl rfl rfl rfl
  exact ⟨h.2.1, h.2.2.1, h.2.2.2.2⟩

/-- C3 counterexample: after a failed illustration fetch and a failed user
fetch, the in-flight markers for "1" and "u9" are STILL SET — the error path
of `loaded_image_info` / `loaded_user_info` returns before any bookkeeping,
refuting the claim that a failed fetch clears the in-flight marker.  The
third conjunct shows the consequence: a later request for "1" is still
coalesced (no retry fetch is issued). -/
theorem failed_fetch_marker_not_cleared_cex :
    (loaded_image_info loadingCache errIllustResult).1.loading_image_data_ids "1" = true ∧
    (loaded_user_info loadingCache errUserResult).1.loading_user_data_ids "u9" = true ∧
    countE (isFetchIllust "1")
      (get_image_info (loaded_image_info loadingCache errIllustResult).1 "1" none).2 = 0 := by
  decide

/-- C3 amended: a failed metadata fetch (item or owner) leaves the cache state
completely unchanged and produces no effects — so no pending callback is
queued or invoked and no negative result is cached, but the in-flight marker
for the key is NOT cleared (the error path returns before any bookkeeping),
so later requests for the key keep being coalesced and no retry is possible. -/
theorem failed_fetch_leaves_state_unchanged
    (st st' : CacheState) (r : IllustResult) (ru : UserResult)
    (hr : r.error = true) (hru : ru.error = true) :
    loaded_image_info st r = (st, []) ∧ loaded_user_info st' ru = (st', []) := by
  unfold loaded_image_info loaded_user_info
  rw [if_pos hr, if_pos hru]
  exact ⟨rfl, rfl⟩

/-- Witness for the amended C3 theorem at the concrete in-flight state. -/
theorem failed_fetch_leaves_state_unchanged_witness :
    loaded_image_info loadingCache errIllustResult = (loadingCache, []) ∧
    loaded_user_info loadingCache errUserResult = (loadingCache, []) :=
  failed_fetch_leaves_state_unchanged loadingCache loadingCache errIllustResult
    errUserResult rfl rfl

/-- C4 counterexample: "v1" is an animation; its primary fetch succeeds and
its secondary (ugoira) fetch fails, yet the primary item data IS stored in the
cache and the in-flight marker is cleared — refuting the claim that a failed
secondary fetch propagates as an item-fetch failure with nothing cached. -/
theorem ugoira_failure_not_propagated_cex :
    ((loaded_ugoira_metadata
        (loaded_image_info emptyCache { error := false, body := dV }).1 dV
        errUgoiraResult).1.image_data "v1").isSome = true ∧
    (loaded_ugoira_metadata
        (loaded_image_info emptyCache { error := false, body := dV }).1 dV
        errUgoiraResult).1.loading_image_data_ids "v1" = false := by
  decide

theorem get_image_info_cached_no_fetch (st : CacheState) (k : String) (cb : Option Nat)
    (d : IllustData) (h2 : st.image_data k = some d) :
    countE (isFetchIllust k) (get_image_info st k cb).2 = 0 := by
  unfold get_image_info
  have key : ∀ st0 : CacheState, st0.loading_image_data_ids = st.loading_image_data_ids →
      st0.image_data = st.image_data → st0.illust_id_to_user_id = st.illust_id_to_user_id →
      countE (isFetchIllust k) (load_image_info st0 k).2 = 0 := by
    intro st0 hl hi hm
    unfold load_image_info
    have h2' : st0.image_data k = some d := by rw [hi]; exact h2
    cases hh : st0.illust_id_to_user_id k with
    | none =>
      simp only [hh, h2']
      split
      · rfl
      · rw [List.nil_append]
        exact load_user_info_countE _ _ (isFetchIllust k) rfl rfl
    | some uid =>
      have hf := load_user_info_frame st0 uid
      have h2'' : (load_user_info st0 uid).1.image_data k = some d := by
        rw [hf.2.2.2.1]; exact h2'
      simp only [hh, h2'']
      split
      · exact load_user_info_countE _ _ (isFetchIllust k) rfl rfl
      · rw [countE_append, load_user_info_countE st0 uid (isFetchIllust k) rfl rfl,
          load_user_info_countE _ _ (isFetchIllust k) rfl rfl]
  cases cb with
  | none => exact key st rfl rfl rfl
  | some c => exact key _ rfl rfl rfl

/-- C10 amended: `add_illust_data` for a non-animation record sets and then
unconditionally deletes the in-flight marker for its identifier — even while a
network fetch for that identifier is still outstanding — and stores the
record; but consequently a subsequent `get_image_info` for that identifier
issues NO second outbound illustration fetch: the injected record is now
cached, so `load_image_info` returns from its cache check (only ensuring the
owner load). -/
theorem inject_clears_marker_but_no_refetch
    (st : CacheState) (d : IllustData) (cb : Option Nat)
    (_hout : st.loading_image_data_ids d.illustId = true)
    (ht : d.illustType ≠ 2) :
    (add_illust_data st d).1.loading_image_data_ids d.illustId = false ∧
    (add_illust_data st d).1.image_data d.illustId = some d ∧
    countE (isFetchIllust d.illustId)
      (get_image_info (add_illust_data st d).1 d.illustId cb).2 = 0 := by
  have hstore : (add_illust_data st d).1.loading_image_data_ids d.illustId = false ∧
      (add_illust_data st d).1.image_data d.illustId = some d := by
    unfold add_illust_data loaded_image_info finished_loading_image_data
    rw [if_neg (by simp)]
    dsimp only
    rw [if_neg ht]
    exact ⟨by simp [bdel], by simp [mset]⟩
  exact ⟨hstore.1, hstore.2,
    get_image_info_cached_no_fetch (add_illust_data st d).1 d.illustId cb d hstore.2⟩

/-- Witness for the amended C10 theorem: injecting "7" while its fetch is
outstanding clears the marker, caches the record, and a subsequent request
issues no fetch. -/
theorem inject_clears_marker_but_no_refetch_witness :
    (add_illust_data loading7Cache d7).1.loading_image_data_ids "7" = false ∧
    countE (isFetchIllust "7")
      (get_image_info (add_illust_data loading7Cache d7).1 "7" (some 3)).2 = 0 := by
  have h := inject_clears_marker_but_no_refetch loading7Cache d7 (some 3) rfl (by decide)
  exact ⟨h.1, h.2.2⟩

/-- C4 amended: for an animation item the secondary (ugoira) fetch is
sequenced after the primary response — the primary response alone stores
nothing in the cache and only issues the ugoira fetch — but a FAILED secondary
fetch does not propagate: the continuation attaches the failed response body
as `ugoiraMetadata` without any error check, stores the item in the cache,
clears the in-flight marker and schedules the owner load, exactly as on
success. -/
theorem ugoira_failure_stores_item
    (st : CacheState) (d : IllustData) (rp : IllustResult) (r : UgoiraResult)
    (hp : rp.error = false) (hb : rp.body = d) (ht : d.illustType = 2)
    (_hr : r.error = true) :
    (loaded_image_info st rp).2 = [.fetchUgoira d.illustId] ∧
    (loaded_image_info st rp).1.image_data = st.image_data ∧
    (loaded_ugoira_metadata (loaded_image_info st rp).1 d r).1.image_data d.illustId =
      some { d with ugoiraMetadata := some r.body } ∧
    (loaded_ugoira_metadata (loaded_image_info st rp).1 d r).1.loading_image_data_ids
      d.illustId = false ∧
    (loaded_ugoira_metadata (loaded_image_info st rp).1 d r).2 =
      [.schedule (.loadUser d.userId)] := by
  have hprim : loaded_image_info st rp =
      ({ st with loading_image_data_ids := bset st.loading_image_data_ids d.illustId },
       [.fetchUgoira d.illustId]) := by
    unfold loaded_image_info
    rw [if_neg (by rw [hp]; simp)]
    rw [hb]
    dsimp only
    rw [if_pos ht]
  rw [hprim]
  refine ⟨rfl, rfl, ?_, ?_, rfl⟩
  · simp [loaded_ugoira_metadata, finished_loading_image_data, mset]
  · simp [loaded_ugoira_metadata, finished_loading_image_data, bdel]

/-- Witness for the amended C4 theorem at the concrete animation "v1" with a
failed ugoira response. -/
theorem ugoira_failure_stores_item_witness :
    (loaded_ugoira_metadata
        (loaded_image_info emptyCache { error := false, body := dV }).1 dV
        errUgoiraResult).1.image_data "v1" =
      some { dV with ugoiraMetadata := some errUgoiraResult.body } :=
  (ugoira_failure_stores_item emptyCache dV { error := false, body := dV }
    errUgoiraResult rfl rfl rfl rfl).2.2.1

/-- C10 counterexample: with a fetch for "7" outstanding, `add_illust_data`
does clear the in-flight marker (the true half of the claim), but a subsequent
`get_image_info("7", ...)` issues NO second outbound metadata fetch — the
claimed consequence ("can start a second outbound metadata fetch") never
happens, because the injected record is already cached. -/
theorem inject_no_second_fetch_cex :
    (add_illust_data loading7Cache d7).1.loading_image_data_ids "7" = false ∧
    countE (isFetchIllust "7")
      (get_image_info (add_illust_data loading7Cache d7).1 "7" none).2 = 0 := by
  decide

/-!
Lemmas about the preload scheduler.
-/

theorem js_indexOf_from_eq_neg_one (x : String) (l : List String) (i : Int) (hi : 0 ≤ i) :
    (js_indexOf_from x i l = -1 ↔ x ∉ l) := by
  induction l generalizing i with
  | nil => simp [js_indexOf_from]
  | cons y ys ih =>
    simp only [js_indexOf_from, List.mem_cons]
    by_cases hy : y = x
    · rw [if_pos hy]
      constructor
      · intro h
        omega
      · intro h
        exact absurd (Or.inl hy.symm) h
    · rw [if_neg hy]
      rw [ih (i + 1) (by omega)]
      constructor
      · intro h hx
        rcases hx with hx | hx
        · exact hy hx.symm
        · exact h hx
      · intro h hx
        exact h (Or.inr hx)

theorem js_indexOf_eq_neg_one (l : List String) (x : String) :
    (js_indexOf l x = -1 ↔ x ∉ l) :=
  js_indexOf_from_eq_neg_one x l 0 le_rfl

theorem filter_recent_go (recent : List String) (l : List Preload) (acc : List Preload) :
    l.foldl (fun acc p => if js_indexOf recent p.url = -1 then acc ++ [p] else acc) acc =
      acc ++ l.filter (fun p => decide (p.url ∉ recent)) := by
  induction l generalizing acc with
  | nil => simp
  | cons p tl ih =>
    simp only [List.foldl_cons, List.filter_cons]
    by_cases hc : p.url ∈ recent
    · rw [if_neg (fun h => (js_indexOf_eq_neg_one recent p.url).1 h hc)]
      rw [ih acc]
      simp [hc]
    · rw [if_pos ((js_indexOf_eq_neg_one recent p.url).2 hc)]
      rw [ih (acc ++ [p])]
      simp [hc]

/-- The filtering loop of `check_fetch_queue` keeps exactly the candidates
whose URL is not in the recently-preloaded list, in order. -/
theorem filter_recent_eq (recent : List String) (l : List Preload) :
    filter_recent recent l = l.filter (fun p => decide (p.url ∉ recent)) := by
  unfold filter_recent
  rw [filter_recent_go]
  simp

theorem cancel_unwanted_acc_subset (olds : List Preload) (acc : List Preload) (a : Preload)
    (ha : a ∈ acc) : a ∈ cancel_unwanted acc olds := by
  induction olds generalizing acc with
  | nil => exact ha
  | cons q olds ih =>
    simp only [cancel_unwanted]
    split
    · exact ih acc ha
    · exact ih (acc ++ [{ q with cancelled := true }]) (List.mem_append_left _ ha)

theorem cancel_unwanted_mem (olds : List Preload) (acc : List Preload) (q : Preload)
    (hq : q ∈ olds) :
    q ∈ cancel_unwanted acc olds ∨ { q with cancelled := true } ∈ cancel_unwanted acc olds := by
  induction olds generalizing acc with
  | nil => exact absurd hq (List.not_mem_nil q)
  | cons r olds ih =>
    rcases List.mem_cons.1 hq with hq | hq
    · subst hq
      simp only [cancel_unwanted]
      by_cases hr : acc.contains q = true
      · rw [if_pos hr]
        exact Or.inl (cancel_unwanted_acc_subset olds acc q (by simpa using hr))
      · rw [if_neg hr]
        exact Or.inr (cancel_unwanted_acc_subset olds _ _
          (List.mem_append_right _ (List.mem_singleton_self _)))
    · simp only [cancel_unwanted]
      split
      · exact ih acc hq
      · exact ih _ hq

theorem countRunning_append (a b : List Preload) :
    countRunning (a ++ b) = countRunning a + countRunning b := by
  simp [countRunning, List.filter_append]

theorem countRunning_cancel_unwanted (olds : List Preload) (acc : List Preload) :
    countRunning (cancel_unwanted acc olds) = countRunning acc := by
  induction olds generalizing acc with
  | nil => rfl
  | cons q olds ih =>
    simp only [cancel_unwanted]
    split
    · exact ih acc
    · rw [ih]
      rw [countRunning_append]
      simp [countRunning]

theorem cancel_unwanted_eq (olds : List Preload) (acc : List Preload)
    (hdisj : ∀ q ∈ olds, ∀ a ∈ acc, a.url ≠ q.url)
    (hnd : (olds.map (fun p => p.url)).Nodup) :
    cancel_unwanted acc olds = acc ++ olds.map (fun q => { q with cancelled := true }) := by
  induction olds generalizing acc with
  | nil => simp [cancel_unwanted]
  | cons q olds ih =>
    simp only [cancel_unwanted]
    rw [if_neg (fun hmem => (hdisj q (List.mem_cons_self q olds) q (by simpa using hmem)) rfl)]
    rw [List.map_cons, List.nodup_cons] at hnd
    have hdisj2 : ∀ r ∈ olds, ∀ a ∈ acc ++ [{ q with cancelled := true }], a.url ≠ r.url := by
      intro r hr a ha
      rcases List.mem_append.1 ha with ha | ha
      · exact hdisj r (List.mem_cons_of_mem q hr) a ha
      · rw [List.mem_singleton.1 ha]
        intro hurl
        exact hnd.1 (hurl ▸ List.mem_map_of_mem (fun p => p.url) hr)
    have H := ih (acc ++ [{ q with cancelled := true }]) hdisj2 hnd.2
    rw [H]
    simp

theorem mem_push_bounded (recent : List String) (u : String) : u ∈ push_bounded recent u := by
  unfold push_bounded
  dsimp only
  rw [List.length_append, List.length_singleton]
  rcases le_or_lt (recent.length + 1) 1000 with h | h
  · rw [Nat.sub_eq_zero_of_le h]
    simp
  · rw [List.drop_append_of_le_length (by omega)]
    simp

/-- C7: candidate derivation — a muted item (by tag or by owner) yields no
candidates; an animation yields exactly two, the ugoira archive with the
opaque-resource (XHR) strategy first and the full-resolution fallback image
with the decode strategy second; any other item yields one decode candidate
per sub-page using its preview URL, in page order, followed by exactly one
decode candidate for the FIRST sub-page's full-resolution URL, and no
full-resolution candidate for any later sub-page. -/
theorem derive_candidates_shape
    (tagM : List String → Bool) (userM : String → Bool) (d : IllustData) :
    (tagM d.tags = true → create_preloaders_for_illust tagM userM d = some []) ∧
    (tagM d.tags = false → userM d.userId = true →
      create_preloaders_for_illust tagM userM d = some []) ∧
    (tagM d.tags = false → userM d.userId = false → d.illustType = 2 →
      ∀ m, d.ugoiraMetadata = some m →
        create_preloaders_for_illust tagM userM d =
          some [⟨m.originalSrc, .xhr, false⟩, ⟨d.urlsOriginal, .img, false⟩]) ∧
    (tagM d.tags = false → userM d.userId = false → d.illustType ≠ 2 →
      ∀ p0 ps, d.mangaPages = p0 :: ps →
        create_preloaders_for_illust tagM userM d =
          some ((p0 :: ps).map (fun p => (⟨p.small, .img, false⟩ : Preload)) ++
            [⟨p0.original, .img, false⟩])) := by
  refine ⟨?_, ?_, ?_, ?_⟩
  · intro h
    unfold create_preloaders_for_illust
    rw [if_pos h]
  · intro h1 h2
    unfold create_preloaders_for_illust
    rw [if_neg (by simp [h1]), if_pos h2]
  · intro h1 h2 ht m hm
    unfold create_preloaders_for_illust
    rw [if_neg (by simp [h1]), if_neg (by simp [h2]), if_pos ht, hm]
  · intro h1 h2 ht p0 ps hp
    unfold create_preloaders_for_illust
    rw [if_neg (by simp [h1]), if_neg (by simp [h2]), if_neg ht]
    dsimp only
    rw [hp]

/-- Witness for the candidate-derivation theorem: the animation `dV2`, the
single-page static item `dA`, and `dA` under an everything-muting tag
predicate. -/
theorem derive_candidates_shape_witness :
    create_preloaders_for_illust mutesNoTag mutesNoOwner dV2 =
      some [⟨"v2.zip", .xhr, false⟩, ⟨"v2o.jpg", .img, false⟩] ∧
    create_preloaders_for_illust mutesNoTag mutesNoOwner dA =
      some [⟨"i1s.jpg", .img, false⟩, ⟨"i1o.jpg", .img, false⟩] ∧
    create_preloaders_for_illust (fun _ => true) mutesNoOwner dA = some [] :=
  ⟨(derive_candidates_shape mutesNoTag mutesNoOwner dV2).2.2.1 rfl rfl rfl ⟨"v2.zip"⟩ rfl,
   (derive_candidates_shape mutesNoTag mutesNoOwner dA).2.2.2 rfl rfl (by decide)
     ⟨"i1s.jpg", "i1o.jpg"⟩ [] rfl,
   (derive_candidates_shape (fun _ => true) mutesNoOwner dA).1 rfl⟩

/-- C5: the wanted list is the current target's candidates followed by the
speculative target's candidates; the filtering loop drops exactly the
candidates whose URL is in the recently-preloaded list (keeping order), and
the list is then truncated to at most 5; with two candidates per target and
nothing recently completed the derived truncated order is exactly
[A.c1, A.c2, B.c1, B.c2]. -/
theorem wanted_list_order_and_truncation
    (tagM : List String → Bool) (userM : String → Bool) (st : SchedState)
    (ca cb : List Preload)
    (hca : cands_of tagM userM st.current_illust_info = some ca)
    (hcb : cands_of tagM userM st.speculative_illust_info = some cb) :
    wanted_preloads tagM userM st = some (ca ++ cb) ∧
    (filter_recent st.recently_preloaded_urls (ca ++ cb)).take 5 =
      ((ca ++ cb).filter
        (fun p => decide (p.url ∉ st.recently_preloaded_urls))).take 5 ∧
    (st.recently_preloaded_urls = [] → ∀ a1 a2 b1 b2 : Preload,
      ca = [a1, a2] → cb = [b1, b2] →
      (filter_recent st.recently_preloaded_urls (ca ++ cb)).take 5 = [a1, a2, b1, b2]) := by
  refine ⟨?_, ?_, ?_⟩
  · unfold wanted_preloads
    rw [hca, hcb]
  · rw [filter_recent_eq]
  · intro hr a1 a2 b1 b2 h1 h2
    subst h1
    subst h2
    rw [filter_recent_eq, hr]
    simp

/-- Witness for the wanted-list theorem at the concrete two-target state. -/
theorem wanted_list_order_and_truncation_witness :
    wanted_preloads mutesNoTag mutesNoOwner schedAB =
      some [⟨"i1s.jpg", .img, false⟩, ⟨"i1o.jpg", .img, false⟩,
            ⟨"i2s.jpg", .img, false⟩, ⟨"i2o.jpg", .img, false⟩] ∧
    (filter_recent schedAB.recently_preloaded_urls
        ([⟨"i1s.jpg", .img, false⟩, ⟨"i1o.jpg", .img, false⟩] ++
         [⟨"i2s.jpg", .img, false⟩, ⟨"i2o.jpg", .img, false⟩])).take 5 =
      [⟨"i1s.jpg", .img, false⟩, ⟨"i1o.jpg", .img, false⟩,
       ⟨"i2s.jpg", .img, false⟩, ⟨"i2o.jpg", .img, false⟩] := by
  have h := wanted_list_order_and_truncation mutesNoTag mutesNoOwner schedAB
    [⟨"i1s.jpg", .img, false⟩, ⟨"i1o.jpg", .img, false⟩]
    [⟨"i2s.jpg", .img, false⟩, ⟨"i2o.jpg", .img, false⟩] rfl rfl
  exact ⟨h.1, h.2.2 rfl _ _ _ _ rfl rfl⟩

/-- C6: reconciliation never runs two preloads at once — if any candidate of
the truncated wanted list is already running, nothing new is started and the
active list is untouched; if none is running, exactly the single
highest-priority candidate is started (every previously active task being
marked cancelling but kept); and the number of non-cancelled tasks in the
active list never exceeds one. -/
theorem one_preload_at_a_time
    (tagM : List String → Bool) (userM : String → Bool) (st : SchedState)
    (w fp : List Preload)
    (hw : wanted_preloads tagM userM st = some w)
    (hfp : fp = (filter_recent st.recently_preloaded_urls w).take 5) :
    ((∃ p ∈ fp, (find_active_preload_by_url st p.url).isSome = true) →
      check_fetch_queue tagM userM st = some (st, none)) ∧
    (∀ p rest, fp = p :: rest →
      (∀ q ∈ fp, find_active_preload_by_url st q.url = none) →
      (st.preloads.map (fun r => r.url)).Nodup →
      check_fetch_queue tagM userM st =
        some ({ st with
            preloads := p :: st.preloads.map (fun r => { r with cancelled := true }) },
          some p)) ∧
    (∀ st2 s, check_fetch_queue tagM userM st = some (st2, s) →
      countRunning st.preloads ≤ 1 → countRunning st2.preloads ≤ 1) := by
  refine ⟨?_, ?_, ?_⟩
  · rintro ⟨p, hp, hp2⟩
    unfold check_fetch_queue
    rw [hw]
    dsimp only
    by_cases hE : (filter_recent st.recently_preloaded_urls w).isEmpty = true
    · rw [if_pos hE]
    · rw [if_neg hE]
      rw [if_pos (List.any_eq_true.2 ⟨p, hfp ▸ hp, hp2⟩)]
  · intro p rest hfpeq hnone hnd
    unfold check_fetch_queue
    rw [hw]
    dsimp only
    have hne : (filter_recent st.recently_preloaded_urls w).isEmpty ≠ true := by
      intro hE
      rw [List.isEmpty_iff] at hE
      rw [hE] at hfp
      rw [hfpeq] at hfp
      simp at hfp
    rw [if_neg hne]
    have hanyf : ((filter_recent st.recently_preloaded_urls w).take 5).any
        (fun p => (find_active_preload_by_url st p.url).isSome) ≠ true := by
      intro hA
      rcases List.any_eq_true.1 hA with ⟨q, hq1, hq2⟩
      rw [hnone q (hfp ▸ hq1)] at hq2
      exact Bool.false_ne_true hq2
    rw [if_neg hanyf]
    rw [← hfp, hfpeq]
    have hdisj : ∀ r ∈ st.preloads, ∀ a ∈ [p], a.url ≠ r.url := by
      have hfind := hnone p (hfpeq ▸ List.mem_cons_self p rest)
      rw [find_active_preload_by_url, List.find?_eq_none] at hfind
      have hfind2 : ∀ r ∈ st.preloads, ¬ r.url = p.url := by simpa using hfind
      intro r hr a ha
      rw [List.mem_singleton.1 ha]
      intro hurl
      exact hfind2 r hr hurl.symm
    dsimp only
    rw [cancel_unwanted_eq st.preloads [p] hdisj hnd]
    rfl
  · intro st2 s hck hcr
    unfold check_fetch_queue at hck
    rw [hw] at hck
    dsimp only at hck
    by_cases hE : (filter_recent st.recently_preloaded_urls w).isEmpty = true
    · rw [if_pos hE] at hck
      injection hck with h
      injection h with h1 h2
      rw [← h1]
      exact hcr
    · rw [if_neg hE] at hck
      by_cases hA : ((filter_recent st.recently_preloaded_urls w).take 5).any
          (fun p => (find_active_preload_by_url st p.url).isSome) = true
      · rw [if_pos hA] at hck
        injection hck with h
        injection h with h1 h2
        rw [← h1]
        exact hcr
      · rw [if_neg hA] at hck
        cases hT : (filter_recent st.recently_preloaded_urls w).take 5 with
        | nil =>
          rw [hT] at hck
          injection hck with h
          injection h with h1 h2
          rw [← h1]
          exact hcr
        | cons p rest =>
          rw [hT] at hck
          injection hck with h
          injection h with h1 h2
          rw [← h1]
          show countRunning (cancel_unwanted [p] st.preloads) ≤ 1
          rw [countRunning_cancel_unwanted]
          cases hc : p.cancelled <;> simp [countRunning, List.filter_cons, hc]

/-- Witness for the serial-execution theorem: on `schedAB` (four candidates,
nothing running) exactly the first candidate of the current target starts. -/
theorem one_preload_at_a_time_witness :
    check_fetch_queue mutesNoTag mutesNoOwner schedAB =
      some ({ schedAB with preloads := [⟨"i1s.jpg", .img, false⟩] },
        some ⟨"i1s.jpg", .img, false⟩) := by
  have h := one_preload_at_a_time mutesNoTag mutesNoOwner schedAB
    [⟨"i1s.jpg", .img, false⟩, ⟨"i1o.jpg", .img, false⟩,
     ⟨"i2s.jpg", .img, false⟩, ⟨"i2o.jpg", .img, false⟩]
    [⟨"i1s.jpg", .img, false⟩, ⟨"i1o.jpg", .img, false⟩,
     ⟨"i2s.jpg", .img, false⟩, ⟨"i2o.jpg", .img, false⟩]
    (by decide) (by decide)
  exact h.2.1 _ _ rfl (by decide) (by decide)

/-- C8: the `set_current_image` staleness check — after `set_current_image(A)`
suspends and `set_current_image(B)` (B ≠ A) replaces the live target, A's
arriving metadata is discarded without mutating state (in whichever order the
two fetches resolve), and only B's metadata is ever stored as
`current_illust_info`. -/
theorem stale_target_metadata_discarded
    (st0 : CurrentImageState) (A B : String) (infoA infoB : IllustData)
    (hAB : A ≠ B) (h0 : st0.current_illust_id ≠ some A)
    (s1 s2 : CurrentImageState)
    (hs1 : s1 = (set_current_image_entry st0 (some A)).1)
    (hs2 : s2 = (set_current_image_entry s1 (some B)).1) :
    (set_current_image_entry st0 (some A)).2 = some A ∧
    (set_current_image_entry s1 (some B)).2 = some B ∧
    s1.current_illust_info = none ∧
    s2.current_illust_id = some B ∧
    s2.current_illust_info = none ∧
    set_current_image_resume s2 A infoA = s2 ∧
    (set_current_image_resume (set_current_image_resume s2 A infoA) B
      infoB).current_illust_info = some infoB ∧
    (set_current_image_resume s2 B infoB).current_illust_info = some infoB ∧
    set_current_image_resume (set_current_image_resume s2 B infoB) A infoA =
      set_current_image_resume s2 B infoB := by
  have hs1' : s1 = ⟨some A, none⟩ := by
    rw [hs1]
    unfold set_current_image_entry
    rw [if_neg h0]
  have e1 : (set_current_image_entry st0 (some A)).2 = some A := by
    unfold set_current_image_entry
    rw [if_neg h0]
  have hBn : s1.current_illust_id ≠ some B := by
    rw [hs1']
    intro h
    exact hAB (Option.some.inj h)
  have hs2' : s2 = ⟨some B, none⟩ := by
    rw [hs2]
    unfold set_current_image_entry
    rw [if_neg hBn]
  have e2 : (set_current_image_entry s1 (some B)).2 = some B := by
    unfold set_current_image_entry
    rw [if_neg hBn]
  have hr1 : set_current_image_resume s2 A infoA = s2 := by
    unfold set_current_image_resume
    rw [if_pos (Or.inl (by rw [hs2']; intro h; exact hAB (Option.some.inj h).symm))]
  have hr2 : set_current_image_resume s2 B infoB = ⟨some B, some infoB⟩ := by
    unfold set_current_image_resume
    rw [if_neg (by rw [hs2']; simp)]
    rw [hs2']
  have hr3 : set_current_image_resume ⟨some B, some infoB⟩ A infoA =
      (⟨some B, some infoB⟩ : CurrentImageState) := by
    unfold set_current_image_resume
    rw [if_pos (Or.inl (by intro h; exact hAB (Option.some.inj h).symm))]
  refine ⟨e1, e2, by rw [hs1'], by rw [hs2'], by rw [hs2'], hr1, ?_, ?_, ?_⟩
  · rw [hr1, hr2]
  · rw [hr2]
  · rw [hr2, hr3]

/-- Witness for the staleness theorem: targets "a" then "b"; after both
resumptions only `dB` is stored. -/
theorem stale_target_metadata_discarded_witness :
    (set_current_image_resume
      (set_current_image_resume
        (set_current_image_entry
          (set_current_image_entry ⟨none, none⟩ (some "a")).1 (some "b")).1
        "a" dA)
      "b" dB).current_illust_info = some dB := by
  have h := stale_target_metadata_discarded ⟨none, none⟩ "a" "b" dA dB
    (by decide) (by decide) _ _ rfl rfl
  exact h.2.2.2.2.2.2.1

set_option maxRecDepth 20000 in
/-- C9: a reconciliation never drops a task from the active list — every
previously active task survives (possibly marked cancelling) — and only the
settlement handler removes a task, at which point its URL is recorded into
the recently-preloaded list. -/
theorem cancelled_task_stays_until_settled
    (tagM : List String → Bool) (userM : String → Bool) (st st2 : SchedState)
    (started : Option Preload) (q p : Preload)
    (hrun : check_fetch_queue tagM userM st = some (st2, started))
    (hnd : (st.preloads.map (fun r => r.url)).Nodup)
    (hq : q ∈ st.preloads) (hp : p ∈ st.preloads) :
    (q ∈ st2.preloads ∨ { q with cancelled := true } ∈ st2.preloads) ∧
    (preload_finished st p).preloads = st.preloads.erase p ∧
    p.url ∈ (preload_finished st p).recently_preloaded_urls ∧
    p ∉ (preload_finished st p).preloads := by
  have hcont : st.preloads.contains p = true := by simpa using hp
  have h2 : (preload_finished st p).preloads = st.preloads.erase p := by
    unfold preload_finished
    dsimp only
    rw [if_pos hcont]
  have h3 : p.url ∈ (preload_finished st p).recently_preloaded_urls := by
    unfold preload_finished
    dsimp only
    rw [if_pos hcont]
    exact mem_push_bounded st.recently_preloaded_urls p.url
  have h4 : p ∉ (preload_finished st p).preloads := by
    rw [h2]
    intro hmem
    have hndp : st.preloads.Nodup := hnd.of_map
    exact ((hndp.mem_erase_iff).1 hmem).1 rfl
  refine ⟨?_, h2, h3, h4⟩
  cases hw : wanted_preloads tagM userM st with
  | none =>
    unfold check_fetch_queue at hrun
    rw [hw] at hrun
    exact absurd hrun (Option.noConfusion)
  | some w =>
    unfold check_fetch_queue at hrun
    rw [hw] at hrun
    dsimp only at hrun
    by_cases hE : (filter_recent st.recently_preloaded_urls w).isEmpty = true
    · rw [if_pos hE] at hrun
      injection hrun with h
      injection h with h1 hs
      rw [← h1]
      exact Or.inl hq
    · rw [if_neg hE] at hrun
      by_cases hA : ((filter_recent st.recently_preloaded_urls w).take 5).any
          (fun r => (find_active_preload_by_url st r.url).isSome) = true
      · rw [if_pos hA] at hrun
        injection hrun with h
        injection h with h1 hs
        rw [← h1]
        exact Or.inl hq
      · rw [if_neg hA] at hrun
        cases hT : (filter_recent st.recently_preloaded_urls w).take 5 with
        | nil =>
          rw [hT] at hrun
          injection hrun with h
          injection h with h1 hs
          rw [← h1]
          exact Or.inl hq
        | cons r rest =>
          rw [hT] at hrun
          injection hrun with h
          injection h with h1 hs
          rw [← h1]
          exact cancel_unwanted_mem st.preloads [r] q hq

/-- Witness for the cancellation-bookkeeping theorem on `schedOneActive`:
reconciliation keeps the superseded "p1" task (marked cancelling), and its
settlement removes it and records its URL. -/
theorem cancelled_task_stays_until_settled_witness :
    ((⟨"p1", .img, false⟩ : Preload) ∈ schedOneActiveRes.preloads ∨
      (⟨"p1", .img, true⟩ : Preload) ∈ schedOneActiveRes.preloads) ∧
    (preload_finished schedOneActive ⟨"p1", .img, false⟩).preloads = [] ∧
    "p1" ∈ (preload_finished schedOneActive ⟨"p1", .img, false⟩).recently_preloaded_urls := by
  have h := cancelled_task_stays_until_settled mutesNoTag mutesNoOwner schedOneActive
    schedOneActiveRes (some ⟨"i1s.jpg", .img, false⟩) ⟨"p1", .img, false⟩
    ⟨"p1", .img, false⟩ (by decide) (by decide) (by decide) (by decide)
  exact ⟨h.1, h.2.1, h.2.2.1⟩

end Ppixiv
